import Mathlib

/-!
Verification of the mute-reminder bot (src/main.py) against its
natural-language specification.

The development shallowly embeds the core of the program:
* the mute-state classifier `is_muted_state` (main.py lines 33-40),
* the destination resolver `get_messageable_for_voice` (lines 42-56),
* the timer registry `mute_tasks : Dict[(guild_id, member_id), Task]`
  together with `start_or_replace_timer`, `cancel_timer` and the
  task's `finally` self-cleanup (lines 27-28, 99-101, 103-117), modelled
  as a transition system `Sys` driven by rising edges, falling edges and
  task terminations,
* the reminder loop `reminder_task` (lines 61-101), modelled as a
  deterministic function of a per-iteration observation trace, and
* the event handler `on_voice_state_update` (lines 128-140).

Machine integers do not occur; ids are `Nat`, flags are `Bool`.
-/

namespace MuteBot

/-- A guild, as far as the core needs it: `guild.get_channel(cid)` returns a
`TextChannel` for ids in `textChannelIds`, some other channel type for ids in
`otherChannelIds`, and `None` otherwise. -/
structure Guild where
  textChannelIds : List Nat
  otherChannelIds : List Nat
deriving Repr, DecidableEq

/-- Result of `guild.get_channel`, distinguishing `discord.TextChannel`
(which the fallback branch accepts) from any other channel type. -/
inductive GotChannel where
  | text (cid : Nat)
  | other (cid : Nat)
deriving Repr, DecidableEq

def guild_get_channel (g : Guild) (cid : Nat) : Option GotChannel :=
  if cid ∈ g.textChannelIds then some (GotChannel.text cid)
  else if cid ∈ g.otherChannelIds then some (GotChannel.other cid)
  else none

/-- A `discord.VoiceChannel`: an id plus its guild (`vc.guild`). -/
structure VoiceChannel where
  id : Nat
  guild : Guild
deriving Repr, DecidableEq

/-- The channel field of a voice state: either a proper `VoiceChannel`
(the only case `isinstance(vs.channel, discord.VoiceChannel)` accepts)
or some other channel type such as a stage channel. -/
inductive Channel where
  | voice (vc : VoiceChannel)
  | stage (id : Nat)
deriving Repr, DecidableEq

/-- `discord.VoiceState`: the four mute/deafen flags and the channel the
member is connected to. Field names follow the source
(`self_mute`, `mute`, `self_deaf`, `deaf`, `channel`). -/
structure VoiceState where
  self_mute : Bool
  mute : Bool
  self_deaf : Bool
  deaf : Bool
  channel : Option Channel
deriving Repr, DecidableEq

/-- main.py lines 33-40.  `COUNT_DEAF_AS_MUTE` is a process-wide
configuration constant; it is passed as a parameter here.
```
def is_muted_state(vs):
    if not vs: return False
    muted = vs.self_mute or vs.mute
    if COUNT_DEAF_AS_MUTE:
        muted = muted or vs.self_deaf or vs.deaf
    return muted
``` -/
def is_muted_state (COUNT_DEAF_AS_MUTE : Bool) : Option VoiceState → Bool
  | none => false
  | some vs =>
    let muted := vs.self_mute || vs.mute
    let muted := if COUNT_DEAF_AS_MUTE then muted || vs.self_deaf || vs.deaf else muted
    muted

/-- The spec's Condition formula, written from the spec's words (§3):
`selfMuted OR serverMuted OR (countDeafAsMute AND (selfDeafened OR serverDeafened))`,
with the input `none` mapped to `false` (§4.1). -/
def classify_spec (countDeafAsMute : Bool) : Option VoiceState → Bool
  | none => false
  | some vs => vs.self_mute || vs.mute || (countDeafAsMute && (vs.self_deaf || vs.deaf))

/-- A `discord.abc.Messageable` the bot might send to: the voice channel
itself (text-in-voice) or a fallback text channel. -/
inductive Messageable where
  | voice (vc : VoiceChannel)
  | text (cid : Nat)
deriving Repr, DecidableEq

/-- main.py lines 42-56.  The `try: return vc / except: pass` block returns a
local name, which cannot raise, so when `vc` is not `None` the function
returns at once and the code below the try (including `guild = vc.guild` and
the fallback lookup) is unreachable.  When `vc` is `None`, `guild` is set to
`None` and the fallback guard `if FALLBACK_TEXT_CHANNEL_ID and guild` fails. -/
def get_messageable_for_voice (FALLBACK_TEXT_CHANNEL_ID : Nat) (vc : Option VoiceChannel) :
    Option Messageable :=
  match vc with
  | some v => some (Messageable.voice v)
  | none =>
    let guild : Option Guild := none
    if FALLBACK_TEXT_CHANNEL_ID ≠ 0 then
      match guild with
      | some g =>
        match guild_get_channel g FALLBACK_TEXT_CHANNEL_ID with
        | some (GotChannel.text cid) => some (Messageable.text cid)
        | _ => none
      | none => none
    else none

theorem get_messageable_map (fb : Nat) (vc : Option VoiceChannel) :
    get_messageable_for_voice fb vc = Option.map Messageable.voice vc := by
  cases vc with
  | some v => rfl
  | none => simp [get_messageable_for_voice]

/-- Claim C3: the mute-state classifier returns `false` for a missing (`none`)
status record, and otherwise returns exactly
`selfMuted OR serverMuted OR (countDeafAsMute AND (selfDeafened OR serverDeafened))`,
for every status record and both values of `countDeafAsMute`. -/
theorem is_muted_state_eq_classify_spec :
    ∀ (countDeafAsMute : Bool) (vs : Option VoiceState),
      is_muted_state countDeafAsMute vs = classify_spec countDeafAsMute vs := by
  intro cdam vs
  cases vs with
  | none => rfl
  | some v =>
    cases v with
    | mk sm m sd d ch =>
      cases cdam <;> cases sm <;> cases m <;> cases sd <;> cases d <;> rfl

/-- Claim C9: `get_messageable_for_voice` returns the voice channel itself
whenever the argument is not `none`, returns `none` whenever the argument is
`none`, and its result never depends on the configured fallback channel id. -/
theorem get_messageable_ignores_fallback :
    ∀ (fb fb2 : Nat) (vc : Option VoiceChannel),
      get_messageable_for_voice fb vc = Option.map Messageable.voice vc ∧
      get_messageable_for_voice fb vc = get_messageable_for_voice fb2 vc := by
  intro fb fb2 vc
  exact ⟨get_messageable_map fb vc, by rw [get_messageable_map, get_messageable_map]⟩

/-! ## The timer registry as a transition system

`mute_tasks : Dict[MuteKey, asyncio.Task]` (main.py lines 27-28) is modelled
as an association list with Python-dict semantics (at most one binding per
key; `dictInsert` replaces, `dictPop` removes).  Each spawned task is a
`TaskRec`; `cancel()` only requests cancellation — the task stays live until
its own termination step delivers the `finally` cleanup, exactly as asyncio
delivers `CancelledError` at the task's next resumption. -/

abbrev MuteKey := Nat × Nat

def dictGet (d : List (MuteKey × Nat)) (k : MuteKey) : Option Nat :=
  (d.find? (fun p => decide (p.1 = k))).map (fun p => p.2)

def dictPop (d : List (MuteKey × Nat)) (k : MuteKey) : List (MuteKey × Nat) :=
  d.filter (fun p => !decide (p.1 = k))

def dictInsert (d : List (MuteKey × Nat)) (k : MuteKey) (v : Nat) : List (MuteKey × Nat) :=
  (k, v) :: dictPop d k

/-- The `finally` clause of `reminder_task` (main.py lines 99-101):
`mute_tasks.pop((guild_id, member_id), None)`.  It pops by key alone; the
task's own handle `selfHandle` is bound here only to document that the source
does not consult it. -/
def task_self_cleanup (registry : List (MuteKey × Nat)) (key : MuteKey) (selfHandle : Nat) :
    List (MuteKey × Nat) :=
  dictPop registry key

/-- Modelled from the spec: `removeIfCurrent(key, handle)` (§4.2) — the
operation the spec says the task's self-termination cleanup performs: remove
the entry only if it still points at `handle`, leaving a replacement entry in
place.  No function in src/main.py implements this; it is written from the
spec's words for comparison with `task_self_cleanup`. -/
def removeIfCurrent (registry : List (MuteKey × Nat)) (key : MuteKey) (handle : Nat) :
    List (MuteKey × Nat) :=
  match dictGet registry key with
  | some h2 => if h2 = handle then dictPop registry key else registry
  | none => registry

/-- One spawned `reminder_task`: its handle, its `(guild_id, member_id)` key,
whether `cancel()` has been requested on it, and whether its coroutine has
finished (its `finally` cleanup has run). -/
structure TaskRec where
  h : Nat
  key : MuteKey
  cancelRequested : Bool
  finished : Bool
deriving Repr, DecidableEq

/-- `t.cancel()` guarded by `if t and not t.done()` on an optional handle. -/
def cancel_if_live (tasks : List TaskRec) (h : Option Nat) : List TaskRec :=
  match h with
  | some h0 =>
    match tasks.find? (fun t => decide (t.h = h0)) with
    | some t =>
      if t.finished then tasks
      else tasks.map (fun u => if u.h = h0 then { u with cancelRequested := true } else u)
    | none => tasks
  | none => tasks

def markFinished (tasks : List TaskRec) (h : Nat) : List TaskRec :=
  tasks.map (fun u => if u.h = h then { u with finished := true } else u)

/-- Global state: the `mute_tasks` dict, every task spawned so far, and the
next fresh handle. -/
structure Sys where
  registry : List (MuteKey × Nat)
  tasks : List TaskRec
  nextH : Nat
deriving Repr, DecidableEq

def initSys : Sys := ⟨[], [], 0⟩

/-- main.py lines 103-110:
```
prev = mute_tasks.get(key)
if prev and not prev.done(): prev.cancel()
mute_tasks[key] = asyncio.create_task(reminder_task(...))
``` -/
def start_or_replace_timer (s : Sys) (k : MuteKey) : Sys :=
  { registry := dictInsert s.registry k s.nextH
    tasks := ⟨s.nextH, k, false, false⟩ :: cancel_if_live s.tasks (dictGet s.registry k)
    nextH := s.nextH + 1 }

/-- main.py lines 112-117:
```
task = mute_tasks.pop(key, None)
if task and not task.done(): task.cancel()
``` -/
def cancel_timer (s : Sys) (k : MuteKey) : Sys :=
  { s with
    registry := dictPop s.registry k
    tasks := cancel_if_live s.tasks (dictGet s.registry k) }

/-- Task `h` terminates (naturally, or because a requested cancellation is
delivered at one of its awaits): its `finally` runs `task_self_cleanup` on its
own key and the task becomes finished.  A finished task cannot terminate
again. -/
def finish_cleanup (s : Sys) (h : Nat) : Sys :=
  match s.tasks.find? (fun t => decide (t.h = h)) with
  | some t =>
    if t.finished then s
    else
      { s with
        registry := task_self_cleanup s.registry t.key h
        tasks := markFinished s.tasks h }
  | none => s

/-- The events the claims quantify over: rising edges, falling edges, and
task self-terminations. -/
inductive Event where
  | rising (k : MuteKey)
  | falling (k : MuteKey)
  | finish (h : Nat)
deriving Repr, DecidableEq

def step (s : Sys) (e : Event) : Sys :=
  match e with
  | .rising k => start_or_replace_timer s k
  | .falling k => cancel_timer s k
  | .finish h => finish_cleanup s h

def runEvents (s : Sys) (evs : List Event) : Sys := evs.foldl step s

def keysOf (d : List (MuteKey × Nat)) : List MuteKey := d.map Prod.fst

/-- A ReminderTask for key `k` with handle `h` is currently suspended or
executing (spawned and not yet finished). -/
def liveEntry (tasks : List TaskRec) (h : Nat) (k : MuteKey) : Prop :=
  ∃ t ∈ tasks, t.h = h ∧ t.key = k ∧ t.finished = false

/-- Boolean form: some ReminderTask for key `k` is suspended or executing. -/
def hasLiveTask (s : Sys) (k : MuteKey) : Bool :=
  s.tasks.any (fun t => decide (t.key = k) && !t.finished)

/-! ### Dictionary lemmas -/

theorem dictPop_cons (p : MuteKey × Nat) (d : List (MuteKey × Nat)) (k : MuteKey) :
    dictPop (p :: d) k = if p.1 = k then dictPop d k else p :: dictPop d k := by
  by_cases hp : p.1 = k <;> simp [dictPop, List.filter_cons, hp]

theorem dictGet_cons (p : MuteKey × Nat) (d : List (MuteKey × Nat)) (k2 : MuteKey) :
    dictGet (p :: d) k2 = if p.1 = k2 then some p.2 else dictGet d k2 := by
  by_cases hp : p.1 = k2 <;> simp [dictGet, List.find?_cons, hp]

theorem dictGet_pop (d : List (MuteKey × Nat)) (k k2 : MuteKey) :
    dictGet (dictPop d k) k2 = if k2 = k then none else dictGet d k2 := by
  induction d with
  | nil => by_cases hk : k2 = k <;> simp [dictGet, dictPop, hk]
  | cons p d ih =>
    by_cases hp : p.1 = k
    · rw [dictPop_cons, if_pos hp, ih, dictGet_cons]
      by_cases hk : k2 = k
      · simp [hk]
      · have hpk : p.1 ≠ k2 := by rw [hp]; exact fun he => hk he.symm
        simp [hk, hpk]
    · rw [dictPop_cons, if_neg hp, dictGet_cons, ih, dictGet_cons]
      by_cases hk : k2 = k
      · simp [hk, hp]
      · simp [hk]

theorem dictGet_insert (d : List (MuteKey × Nat)) (k : MuteKey) (v : Nat) (k2 : MuteKey) :
    dictGet (dictInsert d k v) k2 = if k2 = k then some v else dictGet d k2 := by
  rw [dictInsert, dictGet_cons, dictGet_pop]
  by_cases hk : k2 = k
  · simp [hk]
  · have : (k, v).1 ≠ k2 := fun he => hk he.symm
    simp [hk, this]

theorem keysOf_pop (d : List (MuteKey × Nat)) (k : MuteKey) :
    keysOf (dictPop d k) = (keysOf d).filter (fun k2 => !decide (k2 = k)) := by
  induction d with
  | nil => rfl
  | cons p d ih =>
    rw [dictPop_cons]
    by_cases hp : p.1 = k
    · rw [if_pos hp]
      simp [keysOf, List.filter_cons, hp] at ih ⊢
      exact ih
    · rw [if_neg hp]
      simp [keysOf, List.filter_cons, hp] at ih ⊢
      exact ih

theorem not_mem_keysOf_pop (d : List (MuteKey × Nat)) (k : MuteKey) :
    k ∉ keysOf (dictPop d k) := by
  rw [keysOf_pop]
  intro hmem
  rw [List.mem_filter] at hmem
  simp at hmem

theorem keysOf_pop_nodup (d : List (MuteKey × Nat)) (k : MuteKey)
    (h : (keysOf d).Nodup) : (keysOf (dictPop d k)).Nodup := by
  rw [keysOf_pop]
  exact h.filter _

/-! ### Task-list lemmas -/

theorem map_h_of_preserve {f : TaskRec → TaskRec} (hf : ∀ t, (f t).h = t.h) :
    ∀ l : List TaskRec, (l.map f).map TaskRec.h = l.map TaskRec.h := by
  intro l
  induction l with
  | nil => rfl
  | cons t l ih => simp only [List.map_cons, hf, ih]

theorem cancel_if_live_map_h (tasks : List TaskRec) (x : Option Nat) :
    (cancel_if_live tasks x).map TaskRec.h = tasks.map TaskRec.h := by
  cases x with
  | none => rfl
  | some h0 =>
    cases hfind : tasks.find? (fun t => decide (t.h = h0)) with
    | none => simp only [cancel_if_live, hfind]
    | some t =>
      simp only [cancel_if_live, hfind]
      by_cases hfin : t.finished
      · simp [hfin]
      · simp only [hfin, Bool.false_eq_true, ite_false]
        exact map_h_of_preserve (fun u => by by_cases hu : u.h = h0 <;> simp [hu]) tasks

theorem markFinished_map_h (tasks : List TaskRec) (h0 : Nat) :
    (markFinished tasks h0).map TaskRec.h = tasks.map TaskRec.h := by
  rw [markFinished]
  exact map_h_of_preserve (fun u => by by_cases hu : u.h = h0 <;> simp [hu]) tasks

theorem liveEntry_map_iff {f : TaskRec → TaskRec}
    (hf : ∀ t, (f t).h = t.h ∧ (f t).key = t.key ∧ (f t).finished = t.finished)
    (l : List TaskRec) (h : Nat) (k : MuteKey) :
    liveEntry (l.map f) h k ↔ liveEntry l h k := by
  constructor
  · rintro ⟨t, ht, hth, htk, htf⟩
    rw [List.mem_map] at ht
    obtain ⟨u, hu, rfl⟩ := ht
    refine ⟨u, hu, ?_, ?_, ?_⟩
    · rw [← (hf u).1]; exact hth
    · rw [← (hf u).2.1]; exact htk
    · rw [← (hf u).2.2]; exact htf
  · rintro ⟨u, hu, huh, huk, huf⟩
    exact ⟨f u, List.mem_map_of_mem f hu, (hf u).1.trans huh, (hf u).2.1.trans huk,
      (hf u).2.2.trans huf⟩

theorem liveEntry_cancel_if_live (tasks : List TaskRec) (x : Option Nat) (h : Nat)
    (k : MuteKey) : liveEntry (cancel_if_live tasks x) h k ↔ liveEntry tasks h k := by
  cases x with
  | none => exact Iff.rfl
  | some h0 =>
    cases hfind : tasks.find? (fun t => decide (t.h = h0)) with
    | none => simp only [cancel_if_live, hfind]
    | some t =>
      simp only [cancel_if_live, hfind]
      by_cases hfin : t.finished
      · simp [hfin]
      · simp only [hfin, Bool.false_eq_true, ite_false]
        exact liveEntry_map_iff (fun u => by by_cases hu : u.h = h0 <;> simp [hu]) tasks h k

theorem liveEntry_markFinished (tasks : List TaskRec) (h0 h : Nat) (k : MuteKey) :
    liveEntry (markFinished tasks h0) h k ↔ h ≠ h0 ∧ liveEntry tasks h k := by
  constructor
  · rintro ⟨t, ht, hth, htk, htf⟩
    rw [markFinished, List.mem_map] at ht
    obtain ⟨u, hu, rfl⟩ := ht
    by_cases hu0 : u.h = h0
    · simp [hu0] at htf
    · simp only [hu0, Bool.false_eq_true, ite_false] at hth htk htf
      exact ⟨by rw [← hth]; exact hu0, u, hu, hth, htk, htf⟩
  · rintro ⟨hne, u, hu, huh, huk, huf⟩
    refine ⟨u, ?_, huh, huk, huf⟩
    rw [markFinished, List.mem_map]
    exact ⟨u, hu, by rw [if_neg (by rw [huh]; exact hne)]⟩

/-! ### The registry invariant -/

/-- The inductive invariant of the transition system: registry keys are
unique, task handles are unique, handles are below the fresh counter, and
every registry entry points at a live task for that key. -/
structure SysInv (s : Sys) : Prop where
  keys_nodup : (keysOf s.registry).Nodup
  handles_nodup : (s.tasks.map TaskRec.h).Nodup
  fresh : ∀ x ∈ s.tasks.map TaskRec.h, x < s.nextH
  entry_live : ∀ k h, dictGet s.registry k = some h → liveEntry s.tasks h k

theorem sysInv_init : SysInv initSys := by
  refine ⟨List.nodup_nil, List.nodup_nil, ?_, ?_⟩
  · intro x hx; cases hx
  · intro k h hget; simp [initSys, dictGet] at hget

theorem sysInv_start_or_replace (s : Sys) (k : MuteKey) (hs : SysInv s) :
    SysInv (start_or_replace_timer s k) := by
  refine ⟨?_, ?_, ?_, ?_⟩
  · show (keysOf (dictInsert s.registry k s.nextH)).Nodup
    rw [dictInsert]
    simp only [keysOf, List.map_cons]
    exact List.nodup_cons.mpr ⟨not_mem_keysOf_pop s.registry k,
      keysOf_pop_nodup s.registry k hs.keys_nodup⟩
  · simp only [start_or_replace_timer, List.map_cons, cancel_if_live_map_h]
    refine List.nodup_cons.mpr ⟨?_, hs.handles_nodup⟩
    intro hmem
    exact absurd (hs.fresh _ hmem) (lt_irrefl _)
  · intro x hx
    simp only [start_or_replace_timer, List.map_cons, cancel_if_live_map_h,
      List.mem_cons] at hx
    rcases hx with rfl | hx
    · exact Nat.lt_succ_self _
    · exact Nat.lt_succ_of_lt (hs.fresh x hx)
  · intro k2 h2 hget
    rw [show (start_or_replace_timer s k).registry = dictInsert s.registry k s.nextH from rfl,
      dictGet_insert] at hget
    by_cases hk : k2 = k
    · rw [if_pos hk] at hget
      exact ⟨⟨s.nextH, k, false, false⟩, List.mem_cons_self _ _, Option.some.inj hget, by rw [hk],
        rfl⟩
    · rw [if_neg hk] at hget
      obtain ⟨u, hu, huh, huk, huf⟩ := hs.entry_live k2 h2 hget
      have : liveEntry (cancel_if_live s.tasks (dictGet s.registry k)) h2 k2 :=
        (liveEntry_cancel_if_live _ _ _ _).mpr ⟨u, hu, huh, huk, huf⟩
      obtain ⟨w, hw, hwh, hwk, hwf⟩ := this
      exact ⟨w, List.mem_cons_of_mem _ hw, hwh, hwk, hwf⟩

theorem sysInv_cancel_timer (s : Sys) (k : MuteKey) (hs : SysInv s) :
    SysInv (cancel_timer s k) := by
  refine ⟨?_, ?_, ?_, ?_⟩
  · exact keysOf_pop_nodup s.registry k hs.keys_nodup
  · rw [show (cancel_timer s k).tasks = cancel_if_live s.tasks (dictGet s.registry k) from rfl,
      cancel_if_live_map_h]
    exact hs.handles_nodup
  · intro x hx
    rw [show (cancel_timer s k).tasks = cancel_if_live s.tasks (dictGet s.registry k) from rfl,
      cancel_if_live_map_h] at hx
    exact hs.fresh x hx
  · intro k2 h2 hget
    rw [show (cancel_timer s k).registry = dictPop s.registry k from rfl, dictGet_pop] at hget
    by_cases hk : k2 = k
    · rw [if_pos hk] at hget; cases hget
    · rw [if_neg hk] at hget
      exact (liveEntry_cancel_if_live _ _ _ _).mpr (hs.entry_live k2 h2 hget)

theorem sysInv_finish_cleanup (s : Sys) (h : Nat) (hs : SysInv s) :
    SysInv (finish_cleanup s h) := by
  cases hfind : s.tasks.find? (fun t => decide (t.h = h)) with
  | none => simpa only [finish_cleanup, hfind] using hs
  | some t =>
    by_cases hfin : t.finished
    · simpa only [finish_cleanup, hfind, hfin, ite_true] using hs
    · have ht_mem : t ∈ s.tasks := List.mem_of_find?_eq_some hfind
      have ht_h : t.h = h := by
        have := List.find?_some hfind
        simpa using this
      simp only [finish_cleanup, hfind, hfin, Bool.false_eq_true, ite_false]
      refine ⟨?_, ?_, ?_, ?_⟩
      · exact keysOf_pop_nodup s.registry t.key hs.keys_nodup
      · rw [markFinished_map_h]; exact hs.handles_nodup
      · intro x hx; rw [markFinished_map_h] at hx; exact hs.fresh x hx
      · intro k2 h2 hget
        rw [task_self_cleanup, dictGet_pop] at hget
        by_cases hk2 : k2 = t.key
        · rw [if_pos hk2] at hget; cases hget
        · rw [if_neg hk2] at hget
          obtain ⟨u, hu, huh, huk, huf⟩ := hs.entry_live k2 h2 hget
          have hne : h2 ≠ h := by
            intro he
            have hut : u = t :=
              List.inj_on_of_nodup_map hs.handles_nodup hu ht_mem (by rw [huh, he, ht_h])
            exact hk2 (by rw [← huk, hut])
          exact (liveEntry_markFinished _ _ _ _).mpr ⟨hne, u, hu, huh, huk, huf⟩

theorem sysInv_step (s : Sys) (e : Event) (hs : SysInv s) : SysInv (step s e) := by
  cases e with
  | rising k => exact sysInv_start_or_replace s k hs
  | falling k => exact sysInv_cancel_timer s k hs
  | finish h => exact sysInv_finish_cleanup s h hs

theorem sysInv_runEvents (evs : List Event) : ∀ s : Sys, SysInv s → SysInv (runEvents s evs) := by
  induction evs with
  | nil => intro s hs; exact hs
  | cons e evs ih =>
    intro s hs
    rw [runEvents, List.foldl_cons]
    exact ih (step s e) (sysInv_step s e hs)

/-! ### Claims C1 and C2 -/

/-- Claim C1 counterexample: with the registry entry for key `(0,0)` pointing
at the newer handle `2`, the self-termination cleanup of the task with handle
`1` removes that entry anyway — the code pops by key without comparing
handles, so a stale self-removal deletes the newer task's entry. -/
theorem task_self_cleanup_counterexample :
    dictGet [(((0 : Nat), (0 : Nat)), 2)] (0, 0) = some 2 ∧
    (2 : Nat) ≠ 1 ∧
    task_self_cleanup [(((0 : Nat), (0 : Nat)), 2)] (0, 0) 1 = [] := by decide

/-- Claim C1 (amended): the self-termination cleanup
(`mute_tasks.pop((guild_id, member_id), None)`) removes the registry entry for
its key unconditionally, whatever handle the entry holds; the spec's
`removeIfCurrent` would instead have left an entry holding a different
(newer) handle in place. -/
theorem task_self_cleanup_unconditional :
    ∀ (reg : List (MuteKey × Nat)) (k : MuteKey) (h selfH : Nat),
      dictGet reg k = some h →
      dictGet (task_self_cleanup reg k selfH) k = none ∧
      (h ≠ selfH → removeIfCurrent reg k selfH = reg) := by
  intro reg k h selfH hget
  constructor
  · rw [task_self_cleanup, dictGet_pop, if_pos rfl]
  · intro hne
    rw [removeIfCurrent, hget]
    simp only [hne, Bool.false_eq_true, ite_false]

/-- Witness for the amended C1 at a concrete registry. -/
theorem task_self_cleanup_unconditional_witness :
    dictGet (task_self_cleanup [(((0 : Nat), (0 : Nat)), 2)] (0, 0) 1) (0, 0) = none ∧
    removeIfCurrent [(((0 : Nat), (0 : Nat)), 2)] (0, 0) 1 = [(((0 : Nat), (0 : Nat)), 2)] := by
  have h := task_self_cleanup_unconditional [(((0 : Nat), (0 : Nat)), 2)] (0, 0) 2 1 (by decide)
  exact ⟨h.1, h.2 (by decide)⟩

/-- The interleaving that breaks the registry invariant: a rising edge spawns
task 0, a falling edge pops and cancels it, a second rising edge spawns task 1
before task 0's cancellation is delivered, and then task 0's `finally` pops
key `(0,0)` — removing task 1's entry. -/
def badTrace : List Event :=
  [Event.rising (0, 0), Event.falling (0, 0), Event.rising (0, 0), Event.finish 0]

/-- Claim C2 counterexample: after `badTrace`, task 1 (never cancelled, never
finished) is still executing for key `(0,0)`, yet the registry has no entry
for that key — the "present iff suspended or executing" invariant fails. -/
theorem registry_iff_live_counterexample :
    hasLiveTask (runEvents initSys badTrace) (0, 0) = true ∧
    dictGet (runEvents initSys badTrace).registry (0, 0) = none ∧
    (runEvents initSys badTrace).tasks.find? (fun t => decide (t.h = 1)) =
      some ⟨1, (0, 0), false, false⟩ := by decide

/-- Claim C2 (amended): for every sequence of events the registry holds at
most one entry per key, and every entry present points at a ReminderTask for
that key that is currently suspended or executing (never a stale or finished
handle).  The converse — that a live task's key is always present — is the
direction the counterexample refutes, and is dropped. -/
theorem registry_at_most_one_and_entries_live :
    ∀ evs : List Event,
      (keysOf (runEvents initSys evs).registry).Nodup ∧
      ∀ k h, dictGet (runEvents initSys evs).registry k = some h →
        liveEntry (runEvents initSys evs).tasks h k := by
  intro evs
  have h := sysInv_runEvents evs initSys sysInv_init
  exact ⟨h.keys_nodup, h.entry_live⟩

/-- Witness for the amended C2 at a concrete trace and entry. -/
theorem registry_at_most_one_and_entries_live_witness :
    liveEntry (runEvents initSys [Event.rising (0, 0)]).tasks 0 (0, 0) :=
  (registry_at_most_one_and_entries_live [Event.rising (0, 0)]).2 (0, 0) 0 (by decide)

/-! ## The reminder task loop

`reminder_task` (main.py lines 61-101) is modelled as a deterministic
function of an observation trace: one `IterObs` per iteration of the
`while True` loop, recording what the external lookups
(`bot.get_guild`, `guild.get_member`, `member.voice`) return, whether
`dest.send` succeeds, whether a requested cancellation is delivered at one of
this iteration's awaits, and what `member.voice` reads after each 10-second
polling slice.  The observable behaviour is the list of emitted events
(notification attempts and the `finally` registry cleanup) plus how the
coroutine ended. -/

/-- Configuration constants read from the environment at process start
(main.py lines 14-17). -/
structure Config where
  REMINDER_MINUTES : Nat
  REPEAT_INTERVAL_MINUTES : Nat
  COUNT_DEAF_AS_MUTE : Bool
  FALLBACK_TEXT_CHANNEL_ID : Nat

/-- main.py line 91: `check_interval = 10`. -/
def check_interval : Nat := 10

/-- main.py line 92: `loops = max(1, (REPEAT_INTERVAL_MINUTES * 60) // check_interval)`. -/
def reminder_loops (REPEAT_INTERVAL_MINUTES : Nat) : Nat :=
  max 1 ((REPEAT_INTERVAL_MINUTES * 60) / check_interval)

inductive SliceResult where
  | completed
  | clearedAt (i : Nat)
deriving Repr, DecidableEq

/-- main.py lines 93-98: the inner `for _ in range(loops)` loop.  `f i` is
what `member.voice` returns after the `i`-th slice's sleep; the loop returns
as soon as a reading is absent or no longer muted. -/
def slice_loop (COUNT_DEAF_AS_MUTE : Bool) (f : Nat → Option VoiceState) (i : Nat) :
    Nat → SliceResult
  | 0 => .completed
  | n + 1 =>
    if (f i).isNone || !is_muted_state COUNT_DEAF_AS_MUTE (f i) then .clearedAt i
    else slice_loop COUNT_DEAF_AS_MUTE f (i + 1) n

/-- What the external world presents to one iteration of the task's
`while True` loop. -/
structure IterObs where
  guildFound : Bool
  memberFound : Bool
  displayName : String
  voice : Option VoiceState
  sendOk : Bool
  cancelHere : Bool
  sliceVoice : Nat → Option VoiceState

/-- The environment of one task run: whether cancellation arrives already
during the initial `asyncio.sleep(REMINDER_MINUTES * 60)`, and the
per-iteration observations. -/
structure TaskEnv where
  cancelAtStart : Bool
  iters : List IterObs

inductive TaskEvent where
  | notify (displayName : String) (delayMinutes repeatMinutes : Nat)
  | cleanup (key : MuteKey)
deriving Repr, DecidableEq

def is_cleanup_event : TaskEvent → Bool
  | .cleanup _ => true
  | _ => false

def is_notify_event : TaskEvent → Bool
  | .notify _ _ _ => true
  | _ => false

inductive ExitReason where
  | guildGone
  | memberGone
  | cleared
  | clearedMid
deriving Repr, DecidableEq

/-- How the coroutine body ended: a `return` (with its reason), a delivered
`CancelledError`, a propagating exception from `dest.send`, or the trace ran
out of observations while the loop was still going. -/
inductive BodyOut where
  | ret (r : ExitReason)
  | cancelled
  | exn
  | fuel
deriving Repr, DecidableEq

structure RunResult where
  events : List TaskEvent
  out : BodyOut
deriving Repr, DecidableEq

/-- main.py lines 81-83: `vs.channel if isinstance(vs.channel, VoiceChannel) else None`. -/
def vc_now_of (vs : VoiceState) : Option VoiceChannel :=
  match vs.channel with
  | some (Channel.voice vc) => some vc
  | _ => none

def vc_now_obs (o : IterObs) : Option VoiceChannel :=
  match o.voice with
  | some vs => vc_now_of vs
  | none => none

/-- main.py line 84: `dest = await get_messageable_for_voice(vc_now)`. -/
def iter_dest (cfg : Config) (o : IterObs) : Option Messageable :=
  get_messageable_for_voice cfg.FALLBACK_TEXT_CHANNEL_ID (vc_now_obs o)

/-- main.py lines 85-88: when a destination was resolved, one notification is
attempted (the `[NOTIFY]` log plus `await dest.send(text)`). -/
def iter_notify_events (cfg : Config) (o : IterObs) : List TaskEvent :=
  if (iter_dest cfg o).isSome then
    [TaskEvent.notify o.displayName cfg.REMINDER_MINUTES cfg.REPEAT_INTERVAL_MINUTES]
  else []

/-- main.py lines 66-98, the `while True` body.  Checks happen in source
order: guild lookup, member lookup, voice/muted check, destination
resolution, send (which raises when `sendOk` is false — there is no
try/except around it), then the slice loop; if all slices stay muted the
loop repeats on the rest of the trace. -/
def reminder_body (cfg : Config) : List IterObs → RunResult
  | [] => ⟨[], .fuel⟩
  | o :: rest =>
    if o.cancelHere then ⟨[], .cancelled⟩
    else if !o.guildFound then ⟨[], .ret .guildGone⟩
    else if !o.memberFound then ⟨[], .ret .memberGone⟩
    else if o.voice.isNone || !is_muted_state cfg.COUNT_DEAF_AS_MUTE o.voice then
      ⟨[], .ret .cleared⟩
    else if (iter_dest cfg o).isSome && !o.sendOk then ⟨iter_notify_events cfg o, .exn⟩
    else
      match slice_loop cfg.COUNT_DEAF_AS_MUTE o.sliceVoice 0
          (reminder_loops cfg.REPEAT_INTERVAL_MINUTES) with
      | .clearedAt _ => ⟨iter_notify_events cfg o, .ret .clearedMid⟩
      | .completed =>
        let r := reminder_body cfg rest
        ⟨iter_notify_events cfg o ++ r.events, r.out⟩

/-- main.py lines 61-101: the whole coroutine.  The `try`-body is the initial
sleep plus `reminder_body`; the `finally` appends the registry self-cleanup,
which therefore runs on every exit path.  `vc_id_snapshot` is bound (line 61)
but never read in the body. -/
def reminder_task (cfg : Config) (guild_id member_id : Nat) (vc_id_snapshot : Option Nat)
    (env : TaskEnv) : RunResult :=
  let b : RunResult :=
    if env.cancelAtStart then ⟨[], .cancelled⟩
    else reminder_body cfg env.iters
  ⟨b.events ++ [TaskEvent.cleanup (guild_id, member_id)], b.out⟩

/-- main.py lines 128-140: the `on_voice_state_update` handler.  `was_muted`
and `now_muted` are classified with `is_muted_state`; a rising edge starts or
replaces the member's timer, a falling edge cancels it, anything else leaves
the registry alone; the handler itself sends nothing (the returned event list
is its notification output). -/
def on_voice_state_update (COUNT_DEAF_AS_MUTE : Bool) (s : Sys) (k : MuteKey)
    (before after : Option VoiceState) : Sys × List TaskEvent :=
  if is_muted_state COUNT_DEAF_AS_MUTE after && !is_muted_state COUNT_DEAF_AS_MUTE before then
    (start_or_replace_timer s k, [])
  else if !is_muted_state COUNT_DEAF_AS_MUTE after && is_muted_state COUNT_DEAF_AS_MUTE before then
    (cancel_timer s k, [])
  else (s, [])

/-! ### Helper lemmas about the task loop -/

theorem is_muted_isSome {cdam : Bool} {ov : Option VoiceState}
    (h : is_muted_state cdam ov = true) : ov.isNone = false := by
  cases ov with
  | none => simp [is_muted_state] at h
  | some v => rfl

theorem slice_loop_completed (cdam : Bool) (f : Nat → Option VoiceState) :
    ∀ (n i : Nat), (∀ j, i ≤ j → j < i + n → is_muted_state cdam (f j) = true) →
      slice_loop cdam f i n = SliceResult.completed := by
  intro n
  induction n with
  | zero => intro i hall; rfl
  | succ n ih =>
    intro i hall
    have hmut : is_muted_state cdam (f i) = true :=
      hall i (Nat.le_refl i) (by omega)
    rw [slice_loop, if_neg (by simp [hmut, is_muted_isSome hmut])]
    exact ih (i + 1) (fun j hj1 hj2 => hall j (by omega) (by omega))

theorem slice_loop_cleared (cdam : Bool) (f : Nat → Option VoiceState) :
    ∀ (n i d : Nat), d < n → is_muted_state cdam (f (i + d)) = false →
      (∀ j, i ≤ j → j < i + d → is_muted_state cdam (f j) = true) →
      slice_loop cdam f i n = SliceResult.clearedAt (i + d) := by
  intro n
  induction n with
  | zero => intro i d hd; omega
  | succ n ih =>
    intro i d hd hclear hall
    cases d with
    | zero =>
      have hclear0 : is_muted_state cdam (f i) = false := by simpa using hclear
      rw [slice_loop, if_pos (by simp [hclear0])]
      simp
    | succ d =>
      have hmut : is_muted_state cdam (f i) = true :=
        hall i (Nat.le_refl i) (by omega)
      rw [slice_loop, if_neg (by simp [hmut, is_muted_isSome hmut])]
      have harith : i + (d + 1) = (i + 1) + d := by omega
      rw [harith]
      exact ih (i + 1) d (by omega) (by rw [← harith]; exact hclear)
        (fun j hj1 hj2 => hall j (by omega) (by omega))

theorem iter_notify_events_cleanup_count (cfg : Config) (o : IterObs) :
    (iter_notify_events cfg o).countP is_cleanup_event = 0 := by
  rw [iter_notify_events]
  split <;> rfl

theorem reminder_body_cleanup_count (cfg : Config) (l : List IterObs) :
    (reminder_body cfg l).events.countP is_cleanup_event = 0 := by
  induction l with
  | nil => rfl
  | cons o rest ih =>
    simp only [reminder_body]
    repeat' split
    all_goals simp [List.countP_append, iter_notify_events_cleanup_count, ih]

/-! ### Concrete values for witnesses and counterexamples -/

def guildEmpty : Guild := ⟨[], []⟩

def vc100 : VoiceChannel := ⟨100, guildEmpty⟩

/-- A self-muted member inside voice channel 100. -/
def vsMutedInVC : VoiceState := ⟨true, false, false, false, some (Channel.voice vc100)⟩

/-- A self-muted member whose voice state has no `VoiceChannel`. -/
def vsMutedNoVC : VoiceState := ⟨true, false, false, false, none⟩

/-- The configuration defaults of main.py lines 14-17. -/
def cfgDefault : Config := ⟨5, 30, true, 0⟩

/-- Defaults but with a 1-minute repeat interval, to keep slice evaluation
short. -/
def cfgShort : Config := ⟨5, 1, true, 0⟩

def obsSendFail : IterObs :=
  ⟨true, true, "alice", some vsMutedInVC, false, false, fun _ => some vsMutedInVC⟩

def obsSendOk : IterObs :=
  ⟨true, true, "alice", some vsMutedInVC, true, false, fun _ => some vsMutedInVC⟩

/-- A run in which the first notification send fails while the member stays
muted and a further iteration is available. -/
def envC4 : TaskEnv := ⟨false, [obsSendFail, obsSendOk]⟩

def obsNoDest : IterObs :=
  ⟨true, true, "bob", some vsMutedNoVC, true, false, fun _ => some vsMutedNoVC⟩

/-! ### Claims C4-C8 and C10 -/

/-- Claim C4 counterexample: in `envC4` the member stays muted throughout and
a second iteration (with a working send) is available, yet after the first
send fails the task ends with the exception — only the one failed attempt is
ever made, the loop does not continue to the next interval. -/
theorem notify_failure_counterexample :
    (reminder_task cfgDefault 0 1 none envC4).out = BodyOut.exn ∧
    (reminder_task cfgDefault 0 1 none envC4).events.countP is_notify_event = 1 := by decide

/-- Claim C4 (amended): `await dest.send(text)` is not wrapped in any
try/except, so when the send raises, the exception propagates: the task
terminates at once with the exception (its `finally` cleanup still runs) and
does not continue its repeat loop. -/
theorem notify_failure_raises :
    ∀ (cfg : Config) (g m : Nat) (s : Option Nat) (o : IterObs) (rest : List IterObs),
      o.cancelHere = false → o.guildFound = true → o.memberFound = true →
      is_muted_state cfg.COUNT_DEAF_AS_MUTE o.voice = true →
      (iter_dest cfg o).isSome = true →
      o.sendOk = false →
      reminder_task cfg g m s ⟨false, o :: rest⟩ =
        ⟨[TaskEvent.notify o.displayName cfg.REMINDER_MINUTES cfg.REPEAT_INTERVAL_MINUTES,
          TaskEvent.cleanup (g, m)], BodyOut.exn⟩ := by
  intro cfg g m s o rest hc hg hm hmut hdest hsend
  have hvn : o.voice.isNone = false := is_muted_isSome hmut
  simp [reminder_task, reminder_body, hc, hg, hm, hmut, hvn, hdest, hsend, iter_notify_events]

/-- Witness for the amended C4 at a concrete run. -/
theorem notify_failure_raises_witness :
    reminder_task cfgDefault 0 1 none envC4 =
      ⟨[TaskEvent.notify "alice" 5 30, TaskEvent.cleanup (0, 1)], BodyOut.exn⟩ :=
  notify_failure_raises cfgDefault 0 1 none obsSendFail [obsSendOk] rfl rfl rfl (by decide)
    (by decide) rfl

/-- Claim C5: on every state-change event a rising edge of the muted
condition starts or replaces the member's timer, a falling edge cancels it,
a no-edge transition leaves the registry untouched, and the handler never
emits a notification itself. -/
theorem on_voice_state_update_edges :
    ∀ (cdam : Bool) (s : Sys) (k : MuteKey) (before after : Option VoiceState),
      (is_muted_state cdam after = true ∧ is_muted_state cdam before = false →
        on_voice_state_update cdam s k before after = (start_or_replace_timer s k, [])) ∧
      (is_muted_state cdam after = false ∧ is_muted_state cdam before = true →
        on_voice_state_update cdam s k before after = (cancel_timer s k, [])) ∧
      (is_muted_state cdam after = is_muted_state cdam before →
        on_voice_state_update cdam s k before after = (s, [])) ∧
      (on_voice_state_update cdam s k before after).2 = [] := by
  intro cdam s k before after
  cases hb : is_muted_state cdam before <;> cases ha : is_muted_state cdam after <;>
    simp [on_voice_state_update, hb, ha]

/-- Witness for C5 at a concrete rising edge. -/
theorem on_voice_state_update_edges_witness :
    on_voice_state_update true initSys (0, 0) none (some vsMutedNoVC) =
      (start_or_replace_timer initSys (0, 0), []) :=
  (on_voice_state_update_edges true initSys (0, 0) none (some vsMutedNoVC)).1 ⟨by decide, rfl⟩

/-- Claim C6: on every exit path of a ReminderTask — normal return (guild or
member gone, condition cleared at the head or mid-interval), delivered
cancellation, a propagating send exception, or even trace exhaustion — the
registry self-cleanup is the last event of the run and occurs exactly once:
the task never terminates while skipping cleanup. -/
theorem reminder_task_cleanup_always :
    ∀ (cfg : Config) (g m : Nat) (s : Option Nat) (env : TaskEnv),
      (reminder_task cfg g m s env).events.getLast? = some (TaskEvent.cleanup (g, m)) ∧
      (reminder_task cfg g m s env).events.countP is_cleanup_event = 1 := by
  intro cfg g m s env
  constructor
  · rw [show (reminder_task cfg g m s env).events =
        (if env.cancelAtStart then (⟨[], .cancelled⟩ : RunResult)
          else reminder_body cfg env.iters).events ++ [TaskEvent.cleanup (g, m)] from rfl]
    rw [List.getLast?_concat]
  · rw [show (reminder_task cfg g m s env).events =
        (if env.cancelAtStart then (⟨[], .cancelled⟩ : RunResult)
          else reminder_body cfg env.iters).events ++ [TaskEvent.cleanup (g, m)] from rfl]
    by_cases hcs : env.cancelAtStart <;>
      simp [hcs, List.countP_append, List.countP_cons, reminder_body_cleanup_count,
        is_cleanup_event]

/-- Claim C7 counterexample: with `repeatIntervalMinutes = 0` the code still
sleeps `max(1, 0) = 1` slice of 10 seconds, so the slices total 10 seconds,
not `0 * 60 = 0` — the claim's "including the value 0" fails. -/
theorem repeat_interval_counterexample :
    reminder_loops 0 * check_interval = 10 ∧
    reminder_loops 0 * check_interval ≠ 0 * 60 := by decide

/-- Claim C7 (amended): for every `repeatIntervalMinutes ≥ 1` the repeat
interval is subdivided into 10-second slices whose total is exactly
`repeatIntervalMinutes * 60` seconds (for the value 0, `max(1, ...)` forces a
single 10-second slice instead), the slice loop completes only when every
slice re-check still observes the condition, and it terminates immediately at
the first slice whose re-check observes the condition false. -/
theorem repeat_interval_slices :
    ∀ (m : Nat) (cdam : Bool) (f : Nat → Option VoiceState) (i : Nat),
      (1 ≤ m → reminder_loops m * check_interval = m * 60) ∧
      ((∀ j, j < reminder_loops m → is_muted_state cdam (f j) = true) →
        slice_loop cdam f 0 (reminder_loops m) = SliceResult.completed) ∧
      (i < reminder_loops m → is_muted_state cdam (f i) = false →
        (∀ j, j < i → is_muted_state cdam (f j) = true) →
        slice_loop cdam f 0 (reminder_loops m) = SliceResult.clearedAt i) := by
  intro m cdam f i
  refine ⟨?_, ?_, ?_⟩
  · intro hm
    have h60 : m * 60 = (m * 6) * 10 := by ring
    rw [reminder_loops, check_interval, h60, Nat.mul_div_cancel _ (by norm_num)]
    rw [Nat.max_eq_right (by omega)]
  · intro hall
    exact slice_loop_completed cdam f (reminder_loops m) 0
      (fun j hj1 hj2 => hall j (by omega))
  · intro hi hcl hall
    have := slice_loop_cleared cdam f (reminder_loops m) 0 i (by omega)
      (by simpa using hcl) (fun j hj1 hj2 => hall j (by omega))
    simpa using this

/-- Witness for the amended C7: with a 1-minute interval the six slices total
60 seconds; an always-muted trace completes all slices; a trace whose first
re-check is unmuted is cut off at slice 0. -/
theorem repeat_interval_slices_witness :
    reminder_loops 1 * check_interval = 1 * 60 ∧
    slice_loop true (fun _ => some vsMutedNoVC) 0 (reminder_loops 1) = SliceResult.completed ∧
    slice_loop true (fun _ => (none : Option VoiceState)) 0 (reminder_loops 1) =
      SliceResult.clearedAt 0 :=
  ⟨(repeat_interval_slices 1 true (fun _ => some vsMutedNoVC) 0).1 (by decide),
   (repeat_interval_slices 1 true (fun _ => some vsMutedNoVC) 0).2.1 (fun j hj => rfl),
   (repeat_interval_slices 1 true (fun _ => none) 0).2.2 (by decide) rfl (by decide)⟩

/-- Claim C8: when destination resolution yields `none` (the member's current
location is not a `VoiceChannel`), the iteration attempts no notification and
the task continues its repeat loop exactly as if the iteration were appended
to the rest of the trace — it does not terminate. -/
theorem dest_none_skips_and_continues :
    ∀ (cfg : Config) (o : IterObs) (rest : List IterObs),
      o.cancelHere = false → o.guildFound = true → o.memberFound = true →
      is_muted_state cfg.COUNT_DEAF_AS_MUTE o.voice = true →
      vc_now_obs o = none →
      slice_loop cfg.COUNT_DEAF_AS_MUTE o.sliceVoice 0
          (reminder_loops cfg.REPEAT_INTERVAL_MINUTES) = SliceResult.completed →
      reminder_body cfg (o :: rest) = reminder_body cfg rest := by
  intro cfg o rest hc hg hm hmut hvc hslice
  have hvn : o.voice.isNone = false := is_muted_isSome hmut
  have hdest : iter_dest cfg o = none := by
    rw [iter_dest, get_messageable_map, hvc]
    rfl
  simp [reminder_body, hc, hg, hm, hmut, hvn, hdest, hslice, iter_notify_events]

/-- Witness for C8: a muted member with no voice channel, one observed
iteration; skipping the send, the run equals the run on the empty rest. -/
theorem dest_none_skips_and_continues_witness :
    reminder_body cfgShort [obsNoDest] = reminder_body cfgShort [] :=
  dest_none_skips_and_continues cfgShort obsNoDest [] rfl rfl rfl (by decide) rfl (by decide)

/-- Claim C10: the behaviour of `reminder_task` is independent of its
`vc_id_snapshot` argument — the parameter is bound at spawn time but never
read, because each iteration re-derives the destination from the member's
current voice location. -/
theorem reminder_task_snapshot_independent :
    ∀ (cfg : Config) (g m : Nat) (s1 s2 : Option Nat) (env : TaskEnv),
      reminder_task cfg g m s1 env = reminder_task cfg g m s2 env := by
  intro cfg g m s1 s2 env
  rfl

end MuteBot
